import Mathlib

set_option maxHeartbeats 1000000
set_option maxRecDepth 100000

/-!
Shallow embedding of the line-classification and layout core of
`src/main.py` (function `create_pdf`, lines 102-225).

Strings are modelled as `List Char`.  Python's whitespace set
(`str.strip`) and letter-case predicates (`str.isupper`) are modelled
over the ASCII range, which covers every character class the program's
classification predicates test (the only non-ASCII characters the rules
mention, the em dash, the en dash and the bullet glyph, are uncased and
not whitespace in both models).
-/

/-- The whitespace characters removed by Python `str.strip` (ASCII range). -/
def isPySpace (c : Char) : Bool :=
  c == ' ' || c == '\t' || c == '\n' || c == '\r' || c == '\x0b' || c == '\x0c'

/-- Python `line.strip()`: drop leading and trailing whitespace. -/
def pyStrip (s : List Char) : List Char :=
  ((s.dropWhile isPySpace).reverse.dropWhile isPySpace).reverse

/-- Python `resume_text.split('\n')` (main.py line 179): split on every
newline; `n` newlines yield `n + 1` parts, so a trailing newline yields a
final empty part. -/
def splitLines : List Char → List (List Char)
  | [] => [[]]
  | c :: cs =>
    match splitLines cs with
    | [] => [[]]
    | l :: ls => if c == '\n' then [] :: l :: ls else (c :: l) :: ls

/-- Python `s.replace(t, r)` for a one-character target `t`. -/
def replaceChar (t : Char) (r : List Char) : List Char → List Char
  | [] => []
  | c :: cs => if c == t then r ++ replaceChar t r cs else c :: replaceChar t r cs

/-- main.py line 191: escape `&`, `<`, `>` for reportlab, applied in the
source's order (`&` first, then `<`, then `>`). -/
def pyEscape (s : List Char) : List Char :=
  replaceChar '>' "&gt;".data
    (replaceChar '<' "&lt;".data
      (replaceChar '&' "&amp;".data s))

/-- A character is cased (ASCII range): an upper- or lower-case letter. -/
def isCased (c : Char) : Bool := c.isUpper || c.isLower

/-- Python `line.isupper()`: at least one cased character and no
lower-case character (ASCII model of casedness). -/
def pyIsUpper (s : List Char) : Bool :=
  s.any isCased && s.all (fun c => !c.isLower)

/-- Python `c in line` for a single character `c`. -/
def hasChar (c : Char) (s : List Char) : Bool := s.any (fun d => d == c)

/-- Python `line.startswith(c)` for a one-character argument. -/
def startsWithChar (c : Char) : List Char → Bool
  | [] => false
  | d :: _ => d == c

/-- Boolean list-prefix test (helper for substring containment). -/
def leadsWith : List Char → List Char → Bool
  | [], _ => true
  | _ :: _, [] => false
  | a :: as, b :: bs => a == b && leadsWith as bs

/-- Python `pat in line` for a multi-character pattern: `pat` occurs as a
contiguous substring. -/
def containsSub (pat : List Char) : List Char → Bool
  | [] => leadsWith pat []
  | b :: bs => leadsWith pat (b :: bs) || containsSub pat bs

/-- main.py line 216: the month/date tokens of the date-location branch. -/
def monthMarks : List (List Char) :=
  ["01/".data, "02/".data, "03/".data, "04/".data, "05/".data, "06/".data,
   "07/".data, "08/".data, "09/".data, "10/".data, "11/".data, "12/".data,
   "Present".data, "Expected".data]

/-- The em dash tested by the subheading rule (main.py line 210). -/
def emDash : Char := '—'

/-- The bullet glyph tested by the bullet rule (main.py line 213). -/
def bulletChar : Char := '•'

/-- Per-role paragraph style: the fields `create_pdf` sets on each
`ParagraphStyle` (main.py lines 115-176).  Sizes and spacings are in
points, colors are hex strings; fields a style does not set inherit the
reportlab `Normal` parent (Helvetica 10/12, left aligned, black,
no spacing, no indent). -/
structure StyleSpec where
  fontSize : Nat
  textColor : List Char
  spaceBefore : Nat
  spaceAfter : Nat
  leftIndent : Nat
  leading : Nat
  bold : Bool
  centered : Bool
deriving DecidableEq, Repr

/-- main.py lines 115-124 (`name_style`). -/
def name_style : StyleSpec :=
  ⟨18, "#000000".data, 0, 4, 0, 22, true, true⟩

/-- main.py lines 126-134 (`contact_style`). -/
def contact_style : StyleSpec :=
  ⟨9, "#333333".data, 0, 12, 0, 12, false, true⟩

/-- main.py lines 136-145 (`heading_style`). -/
def heading_style : StyleSpec :=
  ⟨11, "#000000".data, 14, 8, 0, 13, true, false⟩

/-- main.py lines 147-156 (`subheading_style`). -/
def subheading_style : StyleSpec :=
  ⟨10, "#000000".data, 6, 2, 0, 12, true, false⟩

/-- main.py lines 158-166 (`normal_style`). -/
def normal_style : StyleSpec :=
  ⟨10, "#000000".data, 0, 4, 0, 12, false, false⟩

/-- main.py lines 168-176 (`bullet_style`). -/
def bullet_style : StyleSpec :=
  ⟨10, "#000000".data, 0, 3, 20, 12, false, false⟩

/-- One flowable appended to `elements`: a fixed vertical spacer
(`Spacer(1, 0.08*inch)`, main.py line 187) or a styled paragraph
(`Paragraph(line_escaped, style)`). -/
inductive Elem where
  | spacer : Elem
  | par : List Char → StyleSpec → Elem
deriving DecidableEq, Repr

/-- The state carried across the single forward pass: the two booleans
`is_first_line` and `is_second_line` of main.py lines 180-181. -/
structure PassState where
  isFirstLine : Bool
  isSecondLine : Bool
deriving DecidableEq, Repr

/-- main.py lines 180-181: `is_first_line = True`, `is_second_line = False`. -/
def initialState : PassState := ⟨true, false⟩

/-- The per-line body of the loop of main.py lines 183-220: strip the
line, emit a spacer for a blank line, otherwise escape it and emit the
paragraph chosen by the first matching rule, updating the two flags
exactly as the source does. -/
def elemsLine (st : PassState) (raw : List Char) : Elem × PassState :=
  let line := pyStrip raw
  if line = [] then (.spacer, st)
  else
    let esc := pyEscape line
    if st.isFirstLine = true ∧ line.length < 80 then
      (.par esc name_style, ⟨false, true⟩)
    else if st.isSecondLine = true ∧ hasChar '|' line = true then
      (.par esc contact_style, ⟨st.isFirstLine, false⟩)
    else if pyIsUpper line = true ∧ 3 < line.length ∧ line.length < 50 then
      (.par esc heading_style, st)
    else if hasChar emDash line = true ∧ startsWithChar bulletChar line = false then
      (.par esc subheading_style, st)
    else if startsWithChar bulletChar line = true then
      (.par esc bullet_style, st)
    else if hasChar '|' line = true ∧ (monthMarks.any (fun m => containsSub m line)) = true then
      (.par esc normal_style, st)
    else
      (.par esc normal_style, st)

/-- Fold `elemsLine` over the line list, threading the pass state. -/
def elemsFrom (st : PassState) : List (List Char) → List Elem
  | [] => []
  | l :: ls => (elemsLine st l).1 :: elemsFrom (elemsLine st l).2 ls

/-- The full `elements` list that `create_pdf` builds for a text blob. -/
def elemsOf (text : List Char) : List Elem :=
  elemsFrom initialState (splitLines text)

/-- The closed role enumeration of the spec (section 3). -/
inductive Role where
  | Name | ContactLine | SectionHeader | SubHeading | Bullet | Body | Blank
deriving DecidableEq, Repr

/-- The spec's style-to-role reading of an emitted flowable: spacers are
`Blank`, paragraphs are named by their style (`normal_style`, which both
the date-location branch and the fallback attach, reads as `Body`). -/
def classifiedOf : Elem → Role × List Char
  | .spacer => (Role.Blank, [])
  | .par t s =>
    (if s = name_style then Role.Name
     else if s = contact_style then Role.ContactLine
     else if s = heading_style then Role.SectionHeader
     else if s = subheading_style then Role.SubHeading
     else if s = bullet_style then Role.Bullet
     else Role.Body, t)

/-- The contract `classify(text)`: the (role, escaped-text) sequence of the spec,
read off the flowables `create_pdf` emits. -/
def classify (text : List Char) : List (Role × List Char) :=
  (elemsOf text).map classifiedOf

/-- The role sequence of a text blob. -/
def rolesOf (text : List Char) : List Role :=
  (classify text).map Prod.fst

/-- Reading off a paragraph's text never depends on its style. -/
theorem classifiedOf_par_snd (t : List Char) (s : StyleSpec) :
    (classifiedOf (.par t s)).2 = t := rfl

/-- A `name_style` paragraph reads as `Name`. -/
theorem classifiedOf_name (t : List Char) :
    classifiedOf (.par t name_style) = (Role.Name, t) := by
  simp [classifiedOf, name_style, contact_style, heading_style, subheading_style,
    bullet_style, normal_style]

/-- A `contact_style` paragraph reads as `ContactLine`. -/
theorem classifiedOf_contact (t : List Char) :
    classifiedOf (.par t contact_style) = (Role.ContactLine, t) := by
  simp [classifiedOf, name_style, contact_style, heading_style, subheading_style,
    bullet_style, normal_style]

/-- A `heading_style` paragraph reads as `SectionHeader`. -/
theorem classifiedOf_heading (t : List Char) :
    classifiedOf (.par t heading_style) = (Role.SectionHeader, t) := by
  simp [classifiedOf, name_style, contact_style, heading_style, subheading_style,
    bullet_style, normal_style]

/-- A `subheading_style` paragraph reads as `SubHeading`. -/
theorem classifiedOf_subheading (t : List Char) :
    classifiedOf (.par t subheading_style) = (Role.SubHeading, t) := by
  simp [classifiedOf, name_style, contact_style, heading_style, subheading_style,
    bullet_style, normal_style]

/-- A `bullet_style` paragraph reads as `Bullet`. -/
theorem classifiedOf_bullet (t : List Char) :
    classifiedOf (.par t bullet_style) = (Role.Bullet, t) := by
  simp [classifiedOf, name_style, contact_style, heading_style, subheading_style,
    bullet_style, normal_style]

/-- A `normal_style` paragraph reads as `Body`. -/
theorem classifiedOf_normal (t : List Char) :
    classifiedOf (.par t normal_style) = (Role.Body, t) := by
  simp [classifiedOf, name_style, contact_style, heading_style, subheading_style,
    bullet_style, normal_style]

/-- Single-character containment agrees with list membership. -/
theorem hasChar_iff_mem (c : Char) (s : List Char) : hasChar c s = true ↔ c ∈ s := by
  constructor
  · intro h
    rcases List.any_eq_true.mp h with ⟨d, hd, he⟩
    exact beq_iff_eq.mp he ▸ hd
  · intro h
    exact List.any_eq_true.mpr ⟨c, h, beq_self_eq_true c⟩

/-- A positive one-character startswith test puts that character in the list. -/
theorem startsWithChar_mem (c : Char) (s : List Char) (h : startsWithChar c s = true) :
    c ∈ s := by
  cases s with
  | nil => cases h
  | cons d ds =>
    have : d = c := beq_iff_eq.mp h
    exact this ▸ List.mem_cons_self d ds

/-- A line that passes the upper-case test has a cased character. -/
theorem pyIsUpper_has_cased (s : List Char) (h : pyIsUpper s = true) :
    ∃ c ∈ s, isCased c = true := by
  have h1 : s.any isCased = true := (Bool.and_eq_true _ _ |>.mp h).1
  exact List.any_eq_true.mp h1

/-- Exhaustive case analysis of one loop iteration of `create_pdf`
(main.py lines 183-220): exactly which rule fires, under which guards
(each with the negations of all earlier guards), with the emitted
flowable and the updated pass state.  The date-location branch and the
final fallback are merged in the last case because they emit the same
flowable and state. -/
theorem elemsLine_spec (st : PassState) (raw : List Char) :
    (pyStrip raw = [] ∧ elemsLine st raw = (.spacer, st))
    ∨ (pyStrip raw ≠ [] ∧ (st.isFirstLine = true ∧ (pyStrip raw).length < 80)
        ∧ elemsLine st raw = (.par (pyEscape (pyStrip raw)) name_style, ⟨false, true⟩))
    ∨ (pyStrip raw ≠ [] ∧ ¬(st.isFirstLine = true ∧ (pyStrip raw).length < 80)
        ∧ (st.isSecondLine = true ∧ hasChar '|' (pyStrip raw) = true)
        ∧ elemsLine st raw
            = (.par (pyEscape (pyStrip raw)) contact_style, ⟨st.isFirstLine, false⟩))
    ∨ (pyStrip raw ≠ [] ∧ ¬(st.isFirstLine = true ∧ (pyStrip raw).length < 80)
        ∧ ¬(st.isSecondLine = true ∧ hasChar '|' (pyStrip raw) = true)
        ∧ (pyIsUpper (pyStrip raw) = true ∧ 3 < (pyStrip raw).length
            ∧ (pyStrip raw).length < 50)
        ∧ elemsLine st raw = (.par (pyEscape (pyStrip raw)) heading_style, st))
    ∨ (pyStrip raw ≠ [] ∧ ¬(st.isFirstLine = true ∧ (pyStrip raw).length < 80)
        ∧ ¬(st.isSecondLine = true ∧ hasChar '|' (pyStrip raw) = true)
        ∧ ¬(pyIsUpper (pyStrip raw) = true ∧ 3 < (pyStrip raw).length
            ∧ (pyStrip raw).length < 50)
        ∧ (hasChar emDash (pyStrip raw) = true
            ∧ startsWithChar bulletChar (pyStrip raw) = false)
        ∧ elemsLine st raw = (.par (pyEscape (pyStrip raw)) subheading_style, st))
    ∨ (pyStrip raw ≠ [] ∧ ¬(st.isFirstLine = true ∧ (pyStrip raw).length < 80)
        ∧ ¬(st.isSecondLine = true ∧ hasChar '|' (pyStrip raw) = true)
        ∧ ¬(pyIsUpper (pyStrip raw) = true ∧ 3 < (pyStrip raw).length
            ∧ (pyStrip raw).length < 50)
        ∧ ¬(hasChar emDash (pyStrip raw) = true
            ∧ startsWithChar bulletChar (pyStrip raw) = false)
        ∧ startsWithChar bulletChar (pyStrip raw) = true
        ∧ elemsLine st raw = (.par (pyEscape (pyStrip raw)) bullet_style, st))
    ∨ (pyStrip raw ≠ [] ∧ ¬(st.isFirstLine = true ∧ (pyStrip raw).length < 80)
        ∧ ¬(st.isSecondLine = true ∧ hasChar '|' (pyStrip raw) = true)
        ∧ ¬(pyIsUpper (pyStrip raw) = true ∧ 3 < (pyStrip raw).length
            ∧ (pyStrip raw).length < 50)
        ∧ ¬(hasChar emDash (pyStrip raw) = true
            ∧ startsWithChar bulletChar (pyStrip raw) = false)
        ∧ ¬(startsWithChar bulletChar (pyStrip raw) = true)
        ∧ elemsLine st raw = (.par (pyEscape (pyStrip raw)) normal_style, st)) := by
  by_cases h0 : pyStrip raw = []
  · exact Or.inl ⟨h0, by simp [elemsLine, h0]⟩
  by_cases h1 : st.isFirstLine = true ∧ (pyStrip raw).length < 80
  · exact Or.inr (Or.inl ⟨h0, h1, by simp [elemsLine, h0, h1.1, h1.2]⟩)
  by_cases h2 : st.isSecondLine = true ∧ hasChar '|' (pyStrip raw) = true
  · exact Or.inr (Or.inr (Or.inl ⟨h0, h1, h2, by simp [elemsLine, h0, h1, h2.1, h2.2]⟩))
  by_cases h3 : pyIsUpper (pyStrip raw) = true ∧ 3 < (pyStrip raw).length
      ∧ (pyStrip raw).length < 50
  · exact Or.inr (Or.inr (Or.inr (Or.inl ⟨h0, h1, h2, h3,
      by simp [elemsLine, h0, h1, h2, h3.1, h3.2.1, h3.2.2]⟩)))
  by_cases h4 : hasChar emDash (pyStrip raw) = true
      ∧ startsWithChar bulletChar (pyStrip raw) = false
  · exact Or.inr (Or.inr (Or.inr (Or.inr (Or.inl ⟨h0, h1, h2, h3, h4,
      by simp [elemsLine, h0, h1, h2, h3, h4.1, h4.2]⟩))))
  by_cases h5 : startsWithChar bulletChar (pyStrip raw) = true
  · exact Or.inr (Or.inr (Or.inr (Or.inr (Or.inr (Or.inl ⟨h0, h1, h2, h3, h4, h5,
      by simp [elemsLine, h0, h1, h2, h3, h4, h5]⟩)))))
  · have h5f : startsWithChar bulletChar (pyStrip raw) = false := by
      revert h5; cases startsWithChar bulletChar (pyStrip raw) <;> simp
    have h4f : hasChar emDash (pyStrip raw) = false := by
      revert h4; rw [h5f]; cases hasChar emDash (pyStrip raw) <;> simp
    exact Or.inr (Or.inr (Or.inr (Or.inr (Or.inr (Or.inr ⟨h0, h1, h2, h3, h4, h5,
      by simp [elemsLine, h0, h1, h2, h3, h4f, h5f]⟩)))))

/-- The pass emits exactly one flowable per input line. -/
theorem elemsFrom_length (st : PassState) (ls : List (List Char)) :
    (elemsFrom st ls).length = ls.length := by
  induction ls generalizing st with
  | nil => rfl
  | cons l ls ih => simp [elemsFrom, ih]

/-- Unfolding lemma for one step of the pass. -/
theorem elemsFrom_cons (st : PassState) (l : List Char) (ls : List (List Char)) :
    elemsFrom st (l :: ls) = (elemsLine st l).1 :: elemsFrom (elemsLine st l).2 ls := rfl

/-- The role of an emitted flowable. -/
def roleView (e : Elem) : Role := (classifiedOf e).1

/-- A spacer reads as `Blank`. -/
theorem roleView_spacer : roleView Elem.spacer = Role.Blank := rfl

/-- Role of a `name_style` paragraph. -/
theorem roleView_name (t : List Char) : roleView (.par t name_style) = Role.Name := by
  rw [roleView, classifiedOf_name]

/-- Role of a `contact_style` paragraph. -/
theorem roleView_contact (t : List Char) :
    roleView (.par t contact_style) = Role.ContactLine := by
  rw [roleView, classifiedOf_contact]

/-- Role of a `heading_style` paragraph. -/
theorem roleView_heading (t : List Char) :
    roleView (.par t heading_style) = Role.SectionHeader := by
  rw [roleView, classifiedOf_heading]

/-- Role of a `subheading_style` paragraph. -/
theorem roleView_subheading (t : List Char) :
    roleView (.par t subheading_style) = Role.SubHeading := by
  rw [roleView, classifiedOf_subheading]

/-- Role of a `bullet_style` paragraph. -/
theorem roleView_bullet (t : List Char) : roleView (.par t bullet_style) = Role.Bullet := by
  rw [roleView, classifiedOf_bullet]

/-- Role of a `normal_style` paragraph. -/
theorem roleView_normal (t : List Char) : roleView (.par t normal_style) = Role.Body := by
  rw [roleView, classifiedOf_normal]

/-- The role sequence is the role view of the emitted flowables. -/
theorem rolesOf_eq_map (text : List Char) :
    rolesOf text = (elemsFrom initialState (splitLines text)).map roleView := by
  simp only [rolesOf, classify, elemsOf, List.map_map]
  rfl

/-- Number of occurrences of role `r` in a role sequence. -/
def roleCount (r : Role) (rs : List Role) : Nat := rs.countP (fun x => x == r)

/-- Prepending a different role leaves a role count unchanged. -/
theorem roleCount_cons_ne (r x : Role) (rs : List Role) (h : x ≠ r) :
    roleCount r (x :: rs) = roleCount r rs := by
  simp [roleCount, List.countP_cons, beq_iff_eq, h]

/-- Prepending the counted role increments its count. -/
theorem roleCount_cons_eq (r : Role) (rs : List Role) :
    roleCount r (r :: rs) = roleCount r rs + 1 := by
  simp [roleCount, List.countP_cons, beq_iff_eq]

/-- Once `is_first_line` has been cleared it never re-arms, so no line is
ever given the `Name` role from such a state. -/
theorem elemsFrom_no_name (ls : List (List Char)) : ∀ st : PassState,
    st.isFirstLine = false →
    roleCount Role.Name ((elemsFrom st ls).map roleView) = 0 := by
  induction ls with
  | nil => intro st _; rfl
  | cons l ls ih =>
    intro st h
    rcases elemsLine_spec st l with ⟨_, he⟩ | ⟨_, ⟨hf, _⟩, _⟩ | ⟨_, _, _, he⟩
      | ⟨_, _, _, _, he⟩ | ⟨_, _, _, _, _, he⟩ | ⟨_, _, _, _, _, _, he⟩
      | ⟨_, _, _, _, _, _, he⟩
    · rw [elemsFrom_cons, he]
      simp only [List.map_cons, roleView_spacer]
      rw [roleCount_cons_ne _ _ _ (by decide)]
      exact ih st h
    · simp [h] at hf
    · rw [elemsFrom_cons, he]
      simp only [List.map_cons, roleView_contact]
      rw [roleCount_cons_ne _ _ _ (by decide)]
      exact ih ⟨st.isFirstLine, false⟩ h
    · rw [elemsFrom_cons, he]
      simp only [List.map_cons, roleView_heading]
      rw [roleCount_cons_ne _ _ _ (by decide)]
      exact ih st h
    · rw [elemsFrom_cons, he]
      simp only [List.map_cons, roleView_subheading]
      rw [roleCount_cons_ne _ _ _ (by decide)]
      exact ih st h
    · rw [elemsFrom_cons, he]
      simp only [List.map_cons, roleView_bullet]
      rw [roleCount_cons_ne _ _ _ (by decide)]
      exact ih st h
    · rw [elemsFrom_cons, he]
      simp only [List.map_cons, roleView_normal]
      rw [roleCount_cons_ne _ _ _ (by decide)]
      exact ih st h

/-- From any pass state, at most one line is ever given the `Name` role. -/
theorem elemsFrom_name_le_one (ls : List (List Char)) : ∀ st : PassState,
    roleCount Role.Name ((elemsFrom st ls).map roleView) ≤ 1 := by
  induction ls with
  | nil => intro st; exact Nat.zero_le 1
  | cons l ls ih =>
    intro st
    rcases elemsLine_spec st l with ⟨_, he⟩ | ⟨_, _, he⟩ | ⟨_, _, _, he⟩
      | ⟨_, _, _, _, he⟩ | ⟨_, _, _, _, _, he⟩ | ⟨_, _, _, _, _, _, he⟩
      | ⟨_, _, _, _, _, _, he⟩
    · rw [elemsFrom_cons, he]
      simp only [List.map_cons, roleView_spacer]
      rw [roleCount_cons_ne _ _ _ (by decide)]
      exact ih st
    · rw [elemsFrom_cons, he]
      simp only [List.map_cons, roleView_name]
      rw [roleCount_cons_eq]
      rw [elemsFrom_no_name ls ⟨false, true⟩ rfl]
    · rw [elemsFrom_cons, he]
      simp only [List.map_cons, roleView_contact]
      rw [roleCount_cons_ne _ _ _ (by decide)]
      exact ih ⟨st.isFirstLine, false⟩
    · rw [elemsFrom_cons, he]
      simp only [List.map_cons, roleView_heading]
      rw [roleCount_cons_ne _ _ _ (by decide)]
      exact ih st
    · rw [elemsFrom_cons, he]
      simp only [List.map_cons, roleView_subheading]
      rw [roleCount_cons_ne _ _ _ (by decide)]
      exact ih st
    · rw [elemsFrom_cons, he]
      simp only [List.map_cons, roleView_bullet]
      rw [roleCount_cons_ne _ _ _ (by decide)]
      exact ih st
    · rw [elemsFrom_cons, he]
      simp only [List.map_cons, roleView_normal]
      rw [roleCount_cons_ne _ _ _ (by decide)]
      exact ih st

/-- From a state with both flags cleared no line is ever given the
`ContactLine` role (and the flags stay cleared). -/
theorem elemsFrom_no_contact (ls : List (List Char)) : ∀ st : PassState,
    st.isFirstLine = false → st.isSecondLine = false →
    roleCount Role.ContactLine ((elemsFrom st ls).map roleView) = 0 := by
  induction ls with
  | nil => intro st _ _; rfl
  | cons l ls ih =>
    intro st h1 h2
    rcases elemsLine_spec st l with ⟨_, he⟩ | ⟨_, ⟨hf, _⟩, _⟩ | ⟨_, _, ⟨hs, _⟩, _⟩
      | ⟨_, _, _, _, he⟩ | ⟨_, _, _, _, _, he⟩ | ⟨_, _, _, _, _, _, he⟩
      | ⟨_, _, _, _, _, _, he⟩
    · rw [elemsFrom_cons, he]
      simp only [List.map_cons, roleView_spacer]
      rw [roleCount_cons_ne _ _ _ (by decide)]
      exact ih st h1 h2
    · simp [h1] at hf
    · simp [h2] at hs
    · rw [elemsFrom_cons, he]
      simp only [List.map_cons, roleView_heading]
      rw [roleCount_cons_ne _ _ _ (by decide)]
      exact ih st h1 h2
    · rw [elemsFrom_cons, he]
      simp only [List.map_cons, roleView_subheading]
      rw [roleCount_cons_ne _ _ _ (by decide)]
      exact ih st h1 h2
    · rw [elemsFrom_cons, he]
      simp only [List.map_cons, roleView_bullet]
      rw [roleCount_cons_ne _ _ _ (by decide)]
      exact ih st h1 h2
    · rw [elemsFrom_cons, he]
      simp only [List.map_cons, roleView_normal]
      rw [roleCount_cons_ne _ _ _ (by decide)]
      exact ih st h1 h2

/-- From the state right after a `Name` line (`is_first_line` cleared,
`is_second_line` set) at most one line is ever given `ContactLine`. -/
theorem elemsFrom_contact_le_one_second (ls : List (List Char)) : ∀ st : PassState,
    st.isFirstLine = false → st.isSecondLine = true →
    roleCount Role.ContactLine ((elemsFrom st ls).map roleView) ≤ 1 := by
  induction ls with
  | nil => intro st _ _; exact Nat.zero_le 1
  | cons l ls ih =>
    intro st h1 h2
    rcases elemsLine_spec st l with ⟨_, he⟩ | ⟨_, ⟨hf, _⟩, _⟩ | ⟨_, _, _, he⟩
      | ⟨_, _, _, _, he⟩ | ⟨_, _, _, _, _, he⟩ | ⟨_, _, _, _, _, _, he⟩
      | ⟨_, _, _, _, _, _, he⟩
    · rw [elemsFrom_cons, he]
      simp only [List.map_cons, roleView_spacer]
      rw [roleCount_cons_ne _ _ _ (by decide)]
      exact ih st h1 h2
    · simp [h1] at hf
    · rw [elemsFrom_cons, he]
      simp only [List.map_cons, roleView_contact]
      rw [roleCount_cons_eq]
      rw [elemsFrom_no_contact ls ⟨st.isFirstLine, false⟩ h1 rfl]
    · rw [elemsFrom_cons, he]
      simp only [List.map_cons, roleView_heading]
      rw [roleCount_cons_ne _ _ _ (by decide)]
      exact ih st h1 h2
    · rw [elemsFrom_cons, he]
      simp only [List.map_cons, roleView_subheading]
      rw [roleCount_cons_ne _ _ _ (by decide)]
      exact ih st h1 h2
    · rw [elemsFrom_cons, he]
      simp only [List.map_cons, roleView_bullet]
      rw [roleCount_cons_ne _ _ _ (by decide)]
      exact ih st h1 h2
    · rw [elemsFrom_cons, he]
      simp only [List.map_cons, roleView_normal]
      rw [roleCount_cons_ne _ _ _ (by decide)]
      exact ih st h1 h2

/-- From the initial state at most one line is ever given `ContactLine`. -/
theorem elemsFrom_contact_le_one_init (ls : List (List Char)) : ∀ st : PassState,
    st.isFirstLine = true → st.isSecondLine = false →
    roleCount Role.ContactLine ((elemsFrom st ls).map roleView) ≤ 1 := by
  induction ls with
  | nil => intro st _ _; exact Nat.zero_le 1
  | cons l ls ih =>
    intro st h1 h2
    rcases elemsLine_spec st l with ⟨_, he⟩ | ⟨_, _, he⟩ | ⟨_, _, ⟨hs, _⟩, _⟩
      | ⟨_, _, _, _, he⟩ | ⟨_, _, _, _, _, he⟩ | ⟨_, _, _, _, _, _, he⟩
      | ⟨_, _, _, _, _, _, he⟩
    · rw [elemsFrom_cons, he]
      simp only [List.map_cons, roleView_spacer]
      rw [roleCount_cons_ne _ _ _ (by decide)]
      exact ih st h1 h2
    · rw [elemsFrom_cons, he]
      simp only [List.map_cons, roleView_name]
      rw [roleCount_cons_ne _ _ _ (by decide)]
      exact elemsFrom_contact_le_one_second ls ⟨false, true⟩ rfl rfl
    · simp [h2] at hs
    · rw [elemsFrom_cons, he]
      simp only [List.map_cons, roleView_heading]
      rw [roleCount_cons_ne _ _ _ (by decide)]
      exact ih st h1 h2
    · rw [elemsFrom_cons, he]
      simp only [List.map_cons, roleView_subheading]
      rw [roleCount_cons_ne _ _ _ (by decide)]
      exact ih st h1 h2
    · rw [elemsFrom_cons, he]
      simp only [List.map_cons, roleView_bullet]
      rw [roleCount_cons_ne _ _ _ (by decide)]
      exact ih st h1 h2
    · rw [elemsFrom_cons, he]
      simp only [List.map_cons, roleView_normal]
      rw [roleCount_cons_ne _ _ _ (by decide)]
      exact ih st h1 h2

/-- A blank input line yields a spacer at the same position, from any state. -/
theorem elemsFrom_blank_get? (ls : List (List Char)) :
    ∀ (st : PassState) (i : Nat) (l : List Char),
    ls.get? i = some l → pyStrip l = [] →
    (elemsFrom st ls).get? i = some Elem.spacer := by
  induction ls with
  | nil => intro _ _ _ hl _; cases hl
  | cons a as ih =>
    intro st i l hl hb
    cases i with
    | zero =>
      have ha : a = l := by simpa using hl
      subst ha
      have he : elemsLine st a = (.spacer, st) := by simp [elemsLine, hb]
      rw [elemsFrom_cons, he]
      rfl
    | succ j =>
      rw [elemsFrom_cons]
      exact ih (elemsLine st a).2 j l (by simpa using hl) hb

/-- If a line's role does not depend on the pass state, it appears at the
line's position in the role sequence, from any starting state. -/
theorem elemsFrom_get?_roleView (ls : List (List Char)) :
    ∀ (st : PassState) (i : Nat) (l : List Char) (r : Role),
    ls.get? i = some l →
    (∀ st2 : PassState, roleView (elemsLine st2 l).1 = r) →
    ((elemsFrom st ls).map roleView).get? i = some r := by
  induction ls with
  | nil => intro _ _ _ _ hl _; cases hl
  | cons a as ih =>
    intro st i l r hl hr
    cases i with
    | zero =>
      have ha : a = l := by simpa using hl
      subst ha
      simp [elemsFrom_cons, hr st]
    | succ j =>
      rw [elemsFrom_cons]
      simpa using ih (elemsLine st a).2 j l r (by simpa using hl) hr

/-- The line right after a `Name` line gets `ContactLine` exactly when it
contains a vertical bar. -/
theorem elemsFrom_contact_iff (ls : List (List Char)) :
    ∀ (st : PassState) (i : Nat) (l : List Char),
    ((elemsFrom st ls).map roleView).get? i = some Role.Name →
    ls.get? (i+1) = some l →
    (((elemsFrom st ls).map roleView).get? (i+1) = some Role.ContactLine
      ↔ hasChar '|' (pyStrip l) = true) := by
  induction ls with
  | nil => intro st i l hn _; simp [elemsFrom] at hn
  | cons a as ih =>
    intro st i l hn hl
    cases i with
    | zero =>
      rcases elemsLine_spec st a with ⟨_, he⟩ | ⟨_, _, he⟩ | ⟨_, _, _, he⟩
        | ⟨_, _, _, _, he⟩ | ⟨_, _, _, _, _, he⟩ | ⟨_, _, _, _, _, _, he⟩
        | ⟨_, _, _, _, _, _, he⟩
      · rw [elemsFrom_cons, he] at hn; simp [roleView_spacer] at hn
      · cases as with
        | nil => cases hl
        | cons b bs =>
          have hb : b = l := by simpa using hl
          subst hb
          rw [elemsFrom_cons, he]
          show ((elemsFrom ⟨false, true⟩ (b :: bs)).map roleView).get? 0
              = some Role.ContactLine ↔ hasChar '|' (pyStrip b) = true
          rcases elemsLine_spec ⟨false, true⟩ b with ⟨hbl, he2⟩ | ⟨_, ⟨hf, _⟩, _⟩
            | ⟨_, _, ⟨_, hp⟩, he2⟩ | ⟨_, _, h2, _, he2⟩ | ⟨_, _, h2, _, _, he2⟩
            | ⟨_, _, h2, _, _, _, he2⟩ | ⟨_, _, h2, _, _, _, he2⟩
          · rw [elemsFrom_cons, he2]
            simp [roleView_spacer, hbl, hasChar]
          · simp at hf
          · rw [elemsFrom_cons, he2]
            simp [roleView_contact, hp]
          · have hnp : hasChar '|' (pyStrip b) = false := by simpa using h2
            rw [elemsFrom_cons, he2]
            simp [roleView_heading, hnp]
          · have hnp : hasChar '|' (pyStrip b) = false := by simpa using h2
            rw [elemsFrom_cons, he2]
            simp [roleView_subheading, hnp]
          · have hnp : hasChar '|' (pyStrip b) = false := by simpa using h2
            rw [elemsFrom_cons, he2]
            simp [roleView_bullet, hnp]
          · have hnp : hasChar '|' (pyStrip b) = false := by simpa using h2
            rw [elemsFrom_cons, he2]
            simp [roleView_normal, hnp]
      · rw [elemsFrom_cons, he] at hn; simp [roleView_contact] at hn
      · rw [elemsFrom_cons, he] at hn; simp [roleView_heading] at hn
      · rw [elemsFrom_cons, he] at hn; simp [roleView_subheading] at hn
      · rw [elemsFrom_cons, he] at hn; simp [roleView_bullet] at hn
      · rw [elemsFrom_cons, he] at hn; simp [roleView_normal] at hn
    | succ j =>
      exact ih (elemsLine st a).2 j l hn hl

/-- A 90-character trimmed line of upper-case letters and spaces is given
`Body` from every pass state: too long for the name rule (80) and the
header rule (50), and without `|`, the em dash or a leading bullet. -/
theorem roleView_long_upper (st : PassState) (raw : List Char)
    (hchars : ∀ c ∈ pyStrip raw, c.isUpper = true ∨ c = ' ')
    (hlen : (pyStrip raw).length = 90) :
    roleView (elemsLine st raw).1 = Role.Body := by
  rcases elemsLine_spec st raw with ⟨hb, _⟩ | ⟨_, ⟨_, hl⟩, _⟩ | ⟨_, _, ⟨_, hp⟩, _⟩
    | ⟨_, _, _, ⟨_, _, hl50⟩, _⟩ | ⟨_, _, _, _, ⟨hd, _⟩, _⟩
    | ⟨_, _, _, _, _, hbl, _⟩ | ⟨_, _, _, _, _, _, he⟩
  · rw [hb] at hlen; simp at hlen
  · rw [hlen] at hl; omega
  · have hm : ('|' : Char) ∈ pyStrip raw := (hasChar_iff_mem _ _).mp hp
    rcases hchars _ hm with h | h
    · exact absurd h (by decide)
    · exact absurd h (by decide)
  · rw [hlen] at hl50; omega
  · have hm : emDash ∈ pyStrip raw := (hasChar_iff_mem _ _).mp hd
    rcases hchars _ hm with h | h
    · exact absurd h (by decide)
    · exact absurd h (by decide)
  · have hm : bulletChar ∈ pyStrip raw := startsWithChar_mem _ _ hbl
    rcases hchars _ hm with h | h
    · exact absurd h (by decide)
    · exact absurd h (by decide)
  · rw [he]; exact roleView_normal _

/-- Variant of `elemsLine` with the date-location branch (main.py lines 215-217)
removed: such lines fall to the final fallback instead. -/
def elemsLineNoDate (st : PassState) (raw : List Char) : Elem × PassState :=
  let line := pyStrip raw
  if line = [] then (.spacer, st)
  else
    let esc := pyEscape line
    if st.isFirstLine = true ∧ line.length < 80 then
      (.par esc name_style, ⟨false, true⟩)
    else if st.isSecondLine = true ∧ hasChar '|' line = true then
      (.par esc contact_style, ⟨st.isFirstLine, false⟩)
    else if pyIsUpper line = true ∧ 3 < line.length ∧ line.length < 50 then
      (.par esc heading_style, st)
    else if hasChar emDash line = true ∧ startsWithChar bulletChar line = false then
      (.par esc subheading_style, st)
    else if startsWithChar bulletChar line = true then
      (.par esc bullet_style, st)
    else
      (.par esc normal_style, st)

/-- The variant pass without the date-location branch. -/
def elemsFromNoDate (st : PassState) : List (List Char) → List Elem
  | [] => []
  | l :: ls => (elemsLineNoDate st l).1 :: elemsFromNoDate (elemsLineNoDate st l).2 ls

/-- The variant `elements` list without the date-location branch. -/
def elemsOfNoDate (text : List Char) : List Elem :=
  elemsFromNoDate initialState (splitLines text)

/-- Removing the date-location branch does not change one iteration. -/
theorem elemsLine_eq_noDate (st : PassState) (raw : List Char) :
    elemsLine st raw = elemsLineNoDate st raw := by
  simp only [elemsLine, elemsLineNoDate, ite_self]

/-- Removing the date-location branch does not change the whole pass. -/
theorem elemsFrom_eq_noDate (ls : List (List Char)) : ∀ st : PassState,
    elemsFrom st ls = elemsFromNoDate st ls := by
  induction ls with
  | nil => intro st; rfl
  | cons l ls ih =>
    intro st
    rw [elemsFrom_cons, elemsLine_eq_noDate, ih]
    rfl

/-- The classifier variant claim C6 contrasts with: the same rules, but
with every classification predicate evaluated on the escaped text
instead of the unescaped trimmed line (the blank test stays on the
trimmed line, which escaping does not affect). -/
def elemsLineOnEscaped (st : PassState) (raw : List Char) : Elem × PassState :=
  let line := pyStrip raw
  if line = [] then (.spacer, st)
  else
    let esc := pyEscape line
    if st.isFirstLine = true ∧ esc.length < 80 then
      (.par esc name_style, ⟨false, true⟩)
    else if st.isSecondLine = true ∧ hasChar '|' esc = true then
      (.par esc contact_style, ⟨st.isFirstLine, false⟩)
    else if pyIsUpper esc = true ∧ 3 < esc.length ∧ esc.length < 50 then
      (.par esc heading_style, st)
    else if hasChar emDash esc = true ∧ startsWithChar bulletChar esc = false then
      (.par esc subheading_style, st)
    else if startsWithChar bulletChar esc = true then
      (.par esc bullet_style, st)
    else if hasChar '|' esc = true ∧ (monthMarks.any (fun m => containsSub m esc)) = true then
      (.par esc normal_style, st)
    else
      (.par esc normal_style, st)

/-- The escaped-predicate variant of the pass. -/
def elemsFromOnEscaped (st : PassState) : List (List Char) → List Elem
  | [] => []
  | l :: ls =>
    (elemsLineOnEscaped st l).1 :: elemsFromOnEscaped (elemsLineOnEscaped st l).2 ls

/-- Role sequence of the escaped-predicate variant. -/
def rolesOfOnEscaped (text : List Char) : List Role :=
  (elemsFromOnEscaped initialState (splitLines text)).map roleView

/-- reportlab's `inch`: 72 points. -/
def pointsPerInch : ℚ := 72

/-- The page geometry `create_pdf` passes to `SimpleDocTemplate`. -/
structure PageSetup where
  pageWidth : ℚ
  pageHeight : ℚ
  leftMargin : ℚ
  rightMargin : ℚ
  topMargin : ℚ
  bottomMargin : ℚ
deriving DecidableEq, Repr

/-- main.py lines 104-106: `SimpleDocTemplate(buffer, pagesize=letter,
rightMargin=0.75*inch, leftMargin=0.75*inch, topMargin=0.75*inch,
bottomMargin=0.75*inch)`; reportlab's `letter` is 612 by 792 points. -/
def resumeDocSetup : PageSetup :=
  ⟨612, 792, 0.75 * pointsPerInch, 0.75 * pointsPerInch, 0.75 * pointsPerInch,
   0.75 * pointsPerInch⟩

/-- Input whose first line is 80 characters long (so the name rule's
`len(line) < 80` guard fails) followed by a short second line. -/
def overlongFirstInput : List Char := List.replicate 80 'A' ++ '\n' :: ['B']

/-- Scenario A input of the spec (section 8), with its trailing newline. -/
def scenarioA : List Char :=
  "JANE DOE\nNew York, NY | 555-1234 | jane@x.com\n\nPROFESSIONAL SUMMARY\nExperienced engineer.\n\nEXPERIENCE\nSoftware Engineer — Acme Corp\nNYC | 01/2020 – Present\n• Built things\n".data

/-- Name line, then a bar-free line, then a line containing a bar. -/
def skippedContactInput : List Char := "A\nB\nC|D".data

/-- Name line, bar-free second line, then an upper-case line containing
`&`: escaping it would lengthen it and introduce lower-case letters. -/
def escapePredInput : List Char := "X\nY\nAB&CD".data

/-- C1 counterexample: on `overlongFirstInput` the first line is
non-blank (and, being 80 characters long, is not `Name`), yet the second
line is classified `Name` — the `expectingName` flag survived the first
non-blank line, contradicting the claim that after the first non-blank
line has been processed no subsequent line is ever classified `Name`. -/
theorem c1_counterexample :
    pyStrip (((splitLines overlongFirstInput).get? 0).getD []) ≠ [] ∧
    (rolesOf overlongFirstInput).get? 0 = some Role.Body ∧
    (rolesOf overlongFirstInput).get? 1 = some Role.Name := by decide

/-- C1 (amended): the `Name` role is assigned to at most one line of any
document — `is_first_line` is cleared exactly when a `Name` is assigned
(a non-blank first line of trimmed length at least 80 leaves it armed),
and once cleared it never re-arms, so after a `Name` line no subsequent
line is ever classified `Name`. -/
theorem c1_name_at_most_once (text : List Char) :
    roleCount Role.Name (rolesOf text) ≤ 1 := by
  rw [rolesOf_eq_map]
  exact elemsFrom_name_le_one (splitLines text) initialState

/-- C2 counterexample: on `skippedContactInput` line 0 is `Name` and
line 1 contains no `|`, yet line 2 is classified `ContactLine` — the
`expectingContact` flag is not cleared when the line after the name
lacks a bar, contradicting the claim that no later line is ever
classified `ContactLine`. -/
theorem c2_counterexample :
    (rolesOf skippedContactInput).get? 0 = some Role.Name ∧
    hasChar '|' (pyStrip (((splitLines skippedContactInput).get? 1).getD [])) = false ∧
    (rolesOf skippedContactInput).get? 2 = some Role.ContactLine := by decide

/-- C2 (amended): the line immediately following a `Name` line is
classified `ContactLine` iff it contains `|`; if it does not, the
`expectingContact` flag stays set (it is cleared only when a
`ContactLine` is assigned), so a later line containing `|` may still
become `ContactLine` — but at most one line per document ever does. -/
theorem c2_contact_rule (text : List Char) (i : Nat) (l : List Char)
    (hname : (rolesOf text).get? i = some Role.Name)
    (hline : (splitLines text).get? (i + 1) = some l) :
    ((rolesOf text).get? (i + 1) = some Role.ContactLine
      ↔ hasChar '|' (pyStrip l) = true) ∧
    roleCount Role.ContactLine (rolesOf text) ≤ 1 := by
  rw [rolesOf_eq_map] at hname ⊢
  exact ⟨elemsFrom_contact_iff (splitLines text) initialState i l hname hline,
    elemsFrom_contact_le_one_init (splitLines text) initialState rfl rfl⟩

/-- C2 witness: on `"A\nB|c"` the line after the `Name` line contains a
bar and is classified `ContactLine`. -/
theorem c2_contact_rule_witness :
    ((rolesOf "A\nB|c".data).get? 1 = some Role.ContactLine
      ↔ hasChar '|' (pyStrip "B|c".data) = true) ∧
    roleCount Role.ContactLine (rolesOf "A\nB|c".data) ≤ 1 :=
  c2_contact_rule "A\nB|c".data 0 "B|c".data (by decide) (by decide)

/-- C3: classification is total — one (role, content) item per input
line, and a line that is empty after trimming is always `Blank`. -/
theorem c3_classify_total (text : List Char) :
    (classify text).length = (splitLines text).length ∧
    ∀ i l, (splitLines text).get? i = some l → pyStrip l = [] →
      (classify text).get? i = some (Role.Blank, []) := by
  constructor
  · simp [classify, elemsOf, elemsFrom_length]
  · intro i l hl hb
    have h : (elemsOf text).get? i = some Elem.spacer :=
      elemsFrom_blank_get? (splitLines text) initialState i l hl hb
    show ((elemsOf text).map classifiedOf).get? i = some (Role.Blank, [])
    rw [List.get?_map, h]
    rfl

/-- C3 witness on `"a\n\nb"`: three lines, three items, and the middle
blank line is `Blank`. -/
theorem c3_classify_total_witness :
    (classify "a\n\nb".data).length = (splitLines "a\n\nb".data).length ∧
    (classify "a\n\nb".data).get? 1 = some (Role.Blank, []) :=
  ⟨(c3_classify_total "a\n\nb".data).1,
   (c3_classify_total "a\n\nb".data).2 1 [] (by decide) rfl⟩

/-- C4 counterexample: scenario A does not yield the claimed ten-role
sequence — the trailing newline makes `split('\n')` produce an eleventh,
empty line. -/
theorem c4_counterexample :
    rolesOf scenarioA ≠
      [Role.Name, Role.ContactLine, Role.Blank, Role.SectionHeader, Role.Body,
       Role.Blank, Role.SectionHeader, Role.SubHeading, Role.Body,
       Role.Bullet] := by decide

/-- C4 (amended): scenario A yields the claimed roles followed by a
final `Blank` for the empty line after the trailing newline. -/
theorem c4_scenarioA_roles :
    rolesOf scenarioA =
      [Role.Name, Role.ContactLine, Role.Blank, Role.SectionHeader, Role.Body,
       Role.Blank, Role.SectionHeader, Role.SubHeading, Role.Body, Role.Bullet,
       Role.Blank] := by decide

/-- C5: past the name/contact rules, a fully upper-case line of length
strictly between 3 and 50 that also contains an em dash is classified
`SectionHeader`, not `SubHeading` — rule 4 precedes rule 5. -/
theorem c5_upper_beats_emdash (st : PassState) (raw : List Char)
    (hf : st.isFirstLine = false) (hs : st.isSecondLine = false)
    (hupper : pyIsUpper (pyStrip raw) = true)
    (hlen3 : 3 < (pyStrip raw).length) (hlen50 : (pyStrip raw).length < 50)
    (hdash : hasChar emDash (pyStrip raw) = true) :
    roleView (elemsLine st raw).1 = Role.SectionHeader := by
  rcases elemsLine_spec st raw with ⟨hb, _⟩ | ⟨_, ⟨hf2, _⟩, _⟩ | ⟨_, _, ⟨hs2, _⟩, _⟩
    | ⟨_, _, _, _, he⟩ | ⟨_, _, _, h3, _, _⟩ | ⟨_, _, _, h3, _, _, _⟩
    | ⟨_, _, _, h3, _, _, _⟩
  · rw [hb] at hupper; exact absurd hupper (by decide)
  · simp [hf] at hf2
  · simp [hs] at hs2
  · rw [he]; exact roleView_heading _
  · exact absurd ⟨hupper, hlen3, hlen50⟩ h3
  · exact absurd ⟨hupper, hlen3, hlen50⟩ h3
  · exact absurd ⟨hupper, hlen3, hlen50⟩ h3

/-- C5 witness: `"AB — CD"` (upper-case, length 7, with an em dash) is a
`SectionHeader` in the steady state. -/
theorem c5_upper_beats_emdash_witness :
    roleView (elemsLine ⟨false, false⟩ "AB — CD".data).1 = Role.SectionHeader :=
  c5_upper_beats_emdash ⟨false, false⟩ "AB — CD".data rfl rfl (by decide)
    (by decide) (by decide) (by decide)

/-- C6 counterexample: evaluating the classification predicates on the
escaped text is NOT output-equivalent — on `escapePredInput` the line
`AB&CD` is a `SectionHeader`, but its escape `AB&amp;CD` is longer and
contains lower-case letters, so the escaped-predicate variant classifies
it `Body`. -/
theorem c6_counterexample :
    rolesOf escapePredInput ≠ rolesOfOnEscaped escapePredInput ∧
    rolesOf escapePredInput = [Role.Name, Role.Body, Role.SectionHeader] ∧
    rolesOfOnEscaped escapePredInput = [Role.Name, Role.Body, Role.Body] := by
  decide

/-- C6 (amended): every non-blank line's emitted text is the trimmed
line with `&`, `<`, `>` replaced by their escaped literal equivalents
(so `<b>` renders as literal markup-free text), while the classification
predicates are evaluated on the unescaped trimmed content; evaluating
them on escaped text instead could change the classification, so the
order is load-bearing. -/
theorem c6_escaped_text (st : PassState) (raw : List Char)
    (hnb : pyStrip raw ≠ []) :
    (classifiedOf (elemsLine st raw).1).2 = pyEscape (pyStrip raw) ∧
    pyEscape "<b>".data = "&lt;b&gt;".data := by
  refine ⟨?_, by decide⟩
  rcases elemsLine_spec st raw with ⟨hb, _⟩ | ⟨_, _, he⟩ | ⟨_, _, _, he⟩
    | ⟨_, _, _, _, he⟩ | ⟨_, _, _, _, _, he⟩ | ⟨_, _, _, _, _, _, he⟩
    | ⟨_, _, _, _, _, _, he⟩
  · exact absurd hb hnb
  all_goals (rw [he]; rfl)

/-- C6 witness: the non-blank line `x<b>` is emitted escaped. -/
theorem c6_escaped_text_witness :
    (classifiedOf (elemsLine initialState "x<b>".data).1).2
      = pyEscape (pyStrip "x<b>".data) ∧
    pyEscape "<b>".data = "&lt;b&gt;".data :=
  c6_escaped_text initialState "x<b>".data (by decide)

/-- C7: a first non-blank line of trimmed length 90 made of upper-case
letters and spaces is not `Name` (the 80-character bound fails) and, its
length being at least 50, falls through rule 4 down to `Body`. -/
theorem c7_long_upper_first_line (text : List Char) (i : Nat) (l : List Char)
    (hline : (splitLines text).get? i = some l)
    (hbefore : ∀ j lj, j < i → (splitLines text).get? j = some lj → pyStrip lj = [])
    (hchars : ∀ c ∈ pyStrip l, c.isUpper = true ∨ c = ' ')
    (hlen : (pyStrip l).length = 90) :
    (rolesOf text).get? i = some Role.Body ∧
    (rolesOf text).get? i ≠ some Role.Name := by
  have hr : ∀ st2 : PassState, roleView (elemsLine st2 l).1 = Role.Body :=
    fun st2 => roleView_long_upper st2 l hchars hlen
  rw [rolesOf_eq_map]
  have h := elemsFrom_get?_roleView (splitLines text) initialState i l Role.Body
    hline hr
  refine ⟨h, ?_⟩
  rw [h]
  decide

/-- C7 witness: a single line of 90 `A`s is `Body` and not `Name`. -/
theorem c7_long_upper_first_line_witness :
    (rolesOf (List.replicate 90 'A')).get? 0 = some Role.Body ∧
    (rolesOf (List.replicate 90 'A')).get? 0 ≠ some Role.Name :=
  c7_long_upper_first_line (List.replicate 90 'A') 0 (List.replicate 90 'A')
    (by decide) (fun j lj hj _ => absurd hj (Nat.not_lt_zero j)) (by decide)
    (by decide)

/-- C8: the date-location branch (main.py lines 215-217) is dead code
with respect to output — for every input, the pass emits exactly the
flowables of the variant in which that branch is removed and such lines
take the plain `Body` fallback (both attach `normal_style`). -/
theorem c8_date_branch_dead (text : List Char) :
    elemsOf text = elemsOfNoDate text := by
  rw [elemsOf, elemsOfNoDate]
  exact elemsFrom_eq_noDate (splitLines text) initialState

/-- C9: every render call uses US Letter geometry (612 by 792 points,
that is 8.5 by 11 inches) with margins of exactly 0.75 inch (54 points)
on all four sides. -/
theorem c9_page_geometry :
    resumeDocSetup.pageWidth = (17 / 2) * pointsPerInch ∧
    resumeDocSetup.pageHeight = 11 * pointsPerInch ∧
    resumeDocSetup.leftMargin = (3 / 4) * pointsPerInch ∧
    resumeDocSetup.rightMargin = (3 / 4) * pointsPerInch ∧
    resumeDocSetup.topMargin = (3 / 4) * pointsPerInch ∧
    resumeDocSetup.bottomMargin = (3 / 4) * pointsPerInch ∧
    resumeDocSetup.leftMargin = 54 := by
  norm_num [resumeDocSetup, pointsPerInch]

/-- C10: a non-blank line with no cased character fails the upper-case
test, so it is never `SectionHeader` (from any state), and past the
name/contact rules it falls to `SubHeading`, `Bullet` or `Body`. -/
theorem c10_no_cased_not_header (st : PassState) (raw : List Char)
    (hnb : pyStrip raw ≠ [])
    (hchars : ∀ c ∈ pyStrip raw, isCased c = false) :
    roleView (elemsLine st raw).1 ≠ Role.SectionHeader ∧
    (st.isFirstLine = false → st.isSecondLine = false →
      (roleView (elemsLine st raw).1 = Role.SubHeading ∨
       roleView (elemsLine st raw).1 = Role.Bullet ∨
       roleView (elemsLine st raw).1 = Role.Body)) := by
  rcases elemsLine_spec st raw with ⟨hb, _⟩ | ⟨_, ⟨hf2, _⟩, he⟩
    | ⟨_, _, ⟨hs2, _⟩, he⟩ | ⟨_, _, _, ⟨hup, _⟩, _⟩ | ⟨_, _, _, _, _, he⟩
    | ⟨_, _, _, _, _, _, he⟩ | ⟨_, _, _, _, _, _, he⟩
  · exact absurd hb hnb
  · refine ⟨by rw [he]; exact fun h => absurd ((roleView_name _).symm.trans h) (by decide), ?_⟩
    intro h1 _
    simp [h1] at hf2
  · refine ⟨by rw [he]; exact fun h => absurd ((roleView_contact _).symm.trans h) (by decide), ?_⟩
    intro _ h2
    simp [h2] at hs2
  · rcases pyIsUpper_has_cased _ hup with ⟨c, hc, hcc⟩
    rw [hchars c hc] at hcc
    cases hcc
  · constructor
    · rw [he]
      exact fun h => absurd ((roleView_subheading _).symm.trans h) (by decide)
    · intro _ _
      left
      rw [he]
      exact roleView_subheading _
  · constructor
    · rw [he]
      exact fun h => absurd ((roleView_bullet _).symm.trans h) (by decide)
    · intro _ _
      right
      left
      rw [he]
      exact roleView_bullet _
  · constructor
    · rw [he]
      exact fun h => absurd ((roleView_normal _).symm.trans h) (by decide)
    · intro _ _
      right
      right
      rw [he]
      exact roleView_normal _

/-- C10 witness: the digit line `123` is not `SectionHeader` and, in
the steady state, is `Body`. -/
theorem c10_no_cased_not_header_witness :
    roleView (elemsLine ⟨false, false⟩ "123".data).1 ≠ Role.SectionHeader ∧
    ((⟨false, false⟩ : PassState).isFirstLine = false →
      (⟨false, false⟩ : PassState).isSecondLine = false →
      (roleView (elemsLine ⟨false, false⟩ "123".data).1 = Role.SubHeading ∨
       roleView (elemsLine ⟨false, false⟩ "123".data).1 = Role.Bullet ∨
       roleView (elemsLine ⟨false, false⟩ "123".data).1 = Role.Body)) :=
  c10_no_cased_not_header ⟨false, false⟩ "123".data (by decide) (by decide)
